import Mathlib

/-!
Verification of the spectral hashmap assertion module.

The source under verification is src/src/hashmap.rs: the trait
HashMapAssertions with the three operations has_length, contains_key and
contains_key_with_value, implemented for the chainable wrapper named
Spec over a std HashMap.

Model choices:
- A std HashMap is modelled as HMap: an association list of entries in
  native iteration order, together with the container invariant that keys
  are unique.  HashMap::get is first-match lookup by key equality,
  HashMap::len is the entry count, HashMap::keys is the list of keys in
  iteration order.
- Debug rendering of keys and values (the Rust Debug bound on K and V) is
  a parameter dbgK / dbgV, and the PartialEq relation of the value type is
  a parameter veq, exactly as the trait bounds leave them abstract.
- A fatal assertion failure (a Rust panic) is modelled as Except.error
  carrying the assembled failure message; passing is Except.ok.  Because
  the Rust methods take a mutable borrow of self, each operation also
  returns the wrapper state after the call, translated directly from the
  bodies (which never write to self or to the map).
-/

namespace Spectral

/-- Model of std HashMap in native iteration order: entries with the
container invariant that keys are unique. -/
structure HMap (K V : Type) where
  entries : List (K × V)
  nodupKeys : (entries.map Prod.fst).Nodup

variable {K V : Type}

/-- HashMap::len. -/
def HMap.len (m : HMap K V) : Nat :=
  m.entries.length

/-- HashMap::keys, in native iteration order. -/
def HMap.keys (m : HMap K V) : List K :=
  m.entries.map Prod.fst

/-- HashMap::get: lookup of the entry for a key. -/
def HMap.get [DecidableEq K] (m : HMap K V) (k : K) : Option V :=
  (m.entries.find? fun e => decide (e.1 = k)).map Prod.snd

/-- The chainable subject wrapper of the library: the value under test
together with an optional human readable description. -/
structure Spec (α : Type) where
  subject : α
  description : Option String

/-- Modelled from the spec: the failure report builder AssertionFailure,
whose source module is not under src/ (hashmap.rs only uses it).  Per the
spec it carries the wrapper description and the expected and actual
texts, set by builder calls before the report is finalized. -/
structure AssertionFailure where
  description : Option String
  expected : Option String
  actual : Option String

/-- Modelled from the spec: AssertionFailure::from_spec starts a failure
from a wrapper, capturing its description as the subject label. -/
def AssertionFailure.from_spec {α : Type} (s : Spec α) : AssertionFailure :=
  ⟨s.description, none, none⟩

/-- Modelled from the spec: builder call setting the expected text. -/
def AssertionFailure.with_expected (f : AssertionFailure) (e : String) : AssertionFailure :=
  ⟨f.description, some e, f.actual⟩

/-- Modelled from the spec: builder call setting the actual text. -/
def AssertionFailure.with_actual (f : AssertionFailure) (a : String) : AssertionFailure :=
  ⟨f.description, f.expected, some a⟩

/-- Modelled from the spec: the assembled fatal message, of the fixed
shape given in the spec, tab and newline included, optionally prefixed by
the description and a colon. -/
def AssertionFailure.message (f : AssertionFailure) : String :=
  (match f.description with
   | some d => d ++ ": "
   | none => "") ++
  "\n\texpected: " ++ f.expected.getD "" ++ "\n\t but was: " ++ f.actual.getD ""

/-- Modelled from the spec: finalizing a failure report aborts the test
unconditionally; in the embedding the abort is the error branch of
Except, carrying the assembled message, at every result type. -/
def AssertionFailure.fail {α : Type} (f : AssertionFailure) : Except String α :=
  Except.error f.message

/-- The message produced when a failure with the given description,
expected text and actual text is finalized (used to state theorems). -/
def failureMessage (d : Option String) (e a : String) : String :=
  (match d with
   | some s => s ++ ": "
   | none => "") ++ "\n\texpected: " ++ e ++ "\n\t but was: " ++ a

/-- Rust Debug rendering of the collected Vec of keys. -/
def renderKeyList (dbgK : K → String) (ks : List K) : String :=
  "[" ++ String.intercalate ", " (ks.map dbgK) ++ "]"

/-- Whether an assertion outcome is a pass (no fatal failure). -/
def passes {α : Type} (r : Except String α) : Bool :=
  match r with
  | Except.ok _ => true
  | Except.error _ => false

/-- Translation of has_length (hashmap.rs lines 27 to 36).  The returned
wrapper is the state of self after the call. -/
def has_length [DecidableEq K] (s : Spec (HMap K V)) (expected : Nat) :
    Except String (Spec (HMap K V)) :=
  if s.subject.len ≠ expected then
    (((AssertionFailure.from_spec s).with_expected
        ("hashmap to have length <" ++ toString expected ++ ">")).with_actual
        ("<" ++ toString s.subject.len ++ ">")).fail
  else
    Except.ok s

/-- Translation of contains_key (hashmap.rs lines 49 to 67).  On success
it returns the new wrapper over the associated value together with the
state of self after the call; the code after the fail call is the
unreachable branch, which the error result covers. -/
def contains_key [DecidableEq K] (dbgK : K → String) (s : Spec (HMap K V))
    (expected_key : K) : Except String (Spec V × Spec (HMap K V)) :=
  match s.subject.get expected_key with
  | some value => Except.ok (⟨value, s.description⟩, s)
  | none =>
    (((AssertionFailure.from_spec s).with_expected
        ("hashmap to contain key <" ++ dbgK expected_key ++ ">")).with_actual
        ("<" ++ renderKeyList dbgK s.subject.keys ++ ">")).fail

/-- Translation of contains_key_with_value (hashmap.rs lines 78 to 104).
The expected message is built first, exactly as in the source; the value
equality relation is invoked as value.eq(expected_value) in the branch
where the key lookup succeeded. -/
def contains_key_with_value [DecidableEq K] (dbgK : K → String) (dbgV : V → String)
    (veq : V → V → Bool) (s : Spec (HMap K V)) (expected_key : K) (expected_value : V) :
    Except String (Spec (HMap K V)) :=
  let expected_message :=
    "hashmap containing key <" ++ dbgK expected_key ++ "> with value <" ++
      dbgV expected_value ++ ">"
  match s.subject.get expected_key with
  | some value =>
    if veq value expected_value then
      Except.ok s
    else
      (((AssertionFailure.from_spec s).with_expected expected_message).with_actual
          ("key <" ++ dbgK expected_key ++ "> with value <" ++ dbgV value ++
            "> instead")).fail
  | none =>
    (((AssertionFailure.from_spec s).with_expected expected_message).with_actual
        ("no matching key, keys are <" ++ renderKeyList dbgK s.subject.keys ++ ">")).fail

/-- Modelled from the spec: the equality assertion is_equal_to of the
asserting module, which is not under src/ (the hashmap tests chain it
after contains_key).  Per the spec it passes iff the subject equals the
expected value by the value type equality relation, and on failure builds
a failure report from the wrapper with debug renderings of the two
values. -/
def is_equal_to (dbgV : V → String) (veq : V → V → Bool) (s : Spec V) (expected : V) :
    Except String (Spec V) :=
  if veq s.subject expected then
    Except.ok s
  else
    (((AssertionFailure.from_spec s).with_expected ("<" ++ dbgV expected ++ ">")).with_actual
        ("<" ++ dbgV s.subject ++ ">")).fail

/-- The argument pairs on which contains_key_with_value invokes the value
equality relation: the single call site at hashmap.rs line 85, reached
exactly when the key lookup succeeds. -/
def contains_key_with_value_eq_calls [DecidableEq K] (s : Spec (HMap K V)) (expected_key : K)
    (expected_value : V) : List (V × V) :=
  match s.subject.get expected_key with
  | some value => [(value, expected_value)]
  | none => []

/-- Concrete two entry map over Nat used to instantiate theorems. -/
def exMap : HMap Nat Nat :=
  ⟨[(1, 10), (2, 20)], by decide⟩

/-- Concrete singleton map over Nat used to instantiate theorems. -/
def exMap1 : HMap Nat Nat :=
  ⟨[(1, 10)], by decide⟩

/-- The two entry map with its entries in the other iteration order. -/
def exMapRev : HMap Nat Nat :=
  ⟨[(2, 20), (1, 10)], by decide⟩

/-! ## Lookup lemmas -/

theorem find_map_snd_eq_some_iff [DecidableEq K] :
    ∀ (l : List (K × V)), (l.map Prod.fst).Nodup → ∀ (k : K) (v : V),
      ((l.find? fun e => decide (e.1 = k)).map Prod.snd = some v ↔ (k, v) ∈ l) := by
  intro l
  induction l with
  | nil => intro _ k v; simp
  | cons a tl ih =>
    intro hnd k v
    rw [List.map_cons, List.nodup_cons] at hnd
    obtain ⟨ha, htl⟩ := hnd
    by_cases hak : a.1 = k
    · subst hak
      have hfind : ((a :: tl).find? fun e => decide (e.1 = a.1)) = some a := by
        simp [List.find?]
      rw [hfind]
      constructor
      · intro hv
        injection hv with h2
        rw [← h2, Prod.mk.eta]
        exact List.mem_cons_self a tl
      · intro hmem
        rcases List.mem_cons.1 hmem with h | h
        · have hsnd : v = a.2 := congrArg Prod.snd h
          rw [hsnd]
          rfl
        · exact absurd (List.mem_map_of_mem Prod.fst h) ha
    · have hfind : ((a :: tl).find? fun e => decide (e.1 = k)) =
          tl.find? fun e => decide (e.1 = k) := by
        simp [List.find?, hak]
      rw [hfind]
      constructor
      · intro hv
        exact List.mem_cons_of_mem a ((ih htl k v).1 hv)
      · intro hmem
        rcases List.mem_cons.1 hmem with h | h
        · exact absurd (congrArg Prod.fst h).symm hak
        · exact (ih htl k v).2 h

theorem get_eq_some_iff [DecidableEq K] (m : HMap K V) (k : K) (v : V) :
    m.get k = some v ↔ (k, v) ∈ m.entries :=
  find_map_snd_eq_some_iff m.entries m.nodupKeys k v

theorem get_congr_of_perm [DecidableEq K] (m1 m2 : HMap K V)
    (hp : m1.entries.Perm m2.entries) (k : K) : m1.get k = m2.get k := by
  cases h1 : m1.get k with
  | some v =>
    have hm : (k, v) ∈ m2.entries := hp.mem_iff.1 ((get_eq_some_iff m1 k v).1 h1)
    exact ((get_eq_some_iff m2 k v).2 hm).symm
  | none =>
    cases h2 : m2.get k with
    | none => rfl
    | some v =>
      have hm : (k, v) ∈ m1.entries := hp.mem_iff.2 ((get_eq_some_iff m2 k v).1 h2)
      rw [(get_eq_some_iff m1 k v).2 hm] at h1
      exact absurd h1 (by simp)

theorem mem_keys_iff (m : HMap K V) (k : K) :
    k ∈ m.keys ↔ ∃ v, (k, v) ∈ m.entries := by
  simp only [HMap.keys, List.mem_map]
  constructor
  · rintro ⟨⟨a, b⟩, he, rfl⟩
    exact ⟨b, he⟩
  · rintro ⟨v, hv⟩
    exact ⟨(k, v), hv, rfl⟩

/-! ## Pass characterizations -/

theorem has_length_passes_iff [DecidableEq K] (s : Spec (HMap K V)) (n : Nat) :
    passes (has_length s n) = true ↔ s.subject.len = n := by
  by_cases h : s.subject.len = n
  · simp [has_length, h, passes]
  · simp [has_length, h, passes, AssertionFailure.fail]

theorem contains_key_passes_iff [DecidableEq K] (dbgK : K → String)
    (s : Spec (HMap K V)) (k : K) :
    passes (contains_key dbgK s k) = true ↔ (s.subject.get k).isSome := by
  cases h : s.subject.get k with
  | some v => simp [contains_key, h, passes]
  | none => simp [contains_key, h, passes, AssertionFailure.fail]

theorem contains_key_with_value_passes_iff [DecidableEq K] (dbgK : K → String)
    (dbgV : V → String) (veq : V → V → Bool) (s : Spec (HMap K V)) (k : K) (v : V) :
    passes (contains_key_with_value dbgK dbgV veq s k v) = true ↔
      ∃ v', s.subject.get k = some v' ∧ veq v' v = true := by
  cases h : s.subject.get k with
  | some value =>
    by_cases hv : veq value v = true
    · simp [contains_key_with_value, h, hv, passes]
    · constructor
      · intro hf
        simp [contains_key_with_value, h, hv, passes, AssertionFailure.fail] at hf
      · rintro ⟨v', hv', hveq⟩
        injection hv' with h2
        subst h2
        exact absurd hveq hv
  | none =>
    simp [contains_key_with_value, h, passes, AssertionFailure.fail]

theorem builder_fail_eq {α β : Type} (s : Spec β) (e a : String) :
    (((AssertionFailure.from_spec s).with_expected e).with_actual a).fail (α := α) =
      Except.error (failureMessage s.description e a) := rfl

/-! ## Failure branch equations -/

theorem has_length_fail_eq [DecidableEq K] (s : Spec (HMap K V)) (n : Nat)
    (h : s.subject.len ≠ n) :
    has_length s n = Except.error (failureMessage s.description
      ("hashmap to have length <" ++ toString n ++ ">")
      ("<" ++ toString s.subject.len ++ ">")) := by
  unfold has_length
  rw [if_pos h]
  rfl

theorem contains_key_fail_eq [DecidableEq K] (dbgK : K → String) (s : Spec (HMap K V))
    (k : K) (h : s.subject.get k = none) :
    contains_key dbgK s k = Except.error (failureMessage s.description
      ("hashmap to contain key <" ++ dbgK k ++ ">")
      ("<" ++ renderKeyList dbgK s.subject.keys ++ ">")) := by
  unfold contains_key
  rw [h]
  rfl

theorem contains_key_ok_eq [DecidableEq K] (dbgK : K → String) (s : Spec (HMap K V))
    (k : K) (v : V) (h : s.subject.get k = some v) :
    contains_key dbgK s k = Except.ok (Spec.mk v s.description, s) := by
  unfold contains_key
  rw [h]

theorem contains_key_with_value_fail_none_eq [DecidableEq K] (dbgK : K → String)
    (dbgV : V → String) (veq : V → V → Bool) (s : Spec (HMap K V)) (k : K) (v : V)
    (h : s.subject.get k = none) :
    contains_key_with_value dbgK dbgV veq s k v = Except.error (failureMessage s.description
      ("hashmap containing key <" ++ dbgK k ++ "> with value <" ++ dbgV v ++ ">")
      ("no matching key, keys are <" ++ renderKeyList dbgK s.subject.keys ++ ">")) := by
  unfold contains_key_with_value
  rw [h]
  rfl

theorem contains_key_with_value_fail_mismatch_eq [DecidableEq K] (dbgK : K → String)
    (dbgV : V → String) (veq : V → V → Bool) (s : Spec (HMap K V)) (k : K) (v v' : V)
    (h : s.subject.get k = some v') (hveq : veq v' v = false) :
    contains_key_with_value dbgK dbgV veq s k v = Except.error (failureMessage s.description
      ("hashmap containing key <" ++ dbgK k ++ "> with value <" ++ dbgV v ++ ">")
      ("key <" ++ dbgK k ++ "> with value <" ++ dbgV v' ++ "> instead")) := by
  unfold contains_key_with_value
  rw [h]
  simp only [hveq, Bool.false_eq_true, if_false]
  rfl

theorem contains_key_with_value_ok_eq [DecidableEq K] (dbgK : K → String)
    (dbgV : V → String) (veq : V → V → Bool) (s : Spec (HMap K V)) (k : K) (v v' : V)
    (h : s.subject.get k = some v') (hveq : veq v' v = true) :
    contains_key_with_value dbgK dbgV veq s k v = Except.ok s := by
  unfold contains_key_with_value
  rw [h]
  simp only [hveq, if_true]

/-! ## Claim theorems -/

/-- Claim C1: contains_key_with_value passes iff the map has an entry for the
key whose associated value equals the expected value under the value type
equality relation; when the key is absent the actual text lists the current
keys after the words no matching key, when the key is present with another
value the actual text names that value, and the expected text names the key
and the expected value in both cases. -/
theorem contains_key_with_value_spec [DecidableEq K] (dbgK : K → String)
    (dbgV : V → String) (veq : V → V → Bool) (s : Spec (HMap K V)) (k : K) (v : V) :
    (passes (contains_key_with_value dbgK dbgV veq s k v) = true ↔
      ∃ v', (k, v') ∈ s.subject.entries ∧ veq v' v = true)
    ∧ (s.subject.get k = none →
        contains_key_with_value dbgK dbgV veq s k v = Except.error
          (failureMessage s.description
            ("hashmap containing key <" ++ dbgK k ++ "> with value <" ++ dbgV v ++ ">")
            ("no matching key, keys are <" ++ renderKeyList dbgK s.subject.keys ++ ">")))
    ∧ (∀ v', s.subject.get k = some v' → veq v' v = false →
        contains_key_with_value dbgK dbgV veq s k v = Except.error
          (failureMessage s.description
            ("hashmap containing key <" ++ dbgK k ++ "> with value <" ++ dbgV v ++ ">")
            ("key <" ++ dbgK k ++ "> with value <" ++ dbgV v' ++ "> instead"))) := by
  refine ⟨?_, ?_, ?_⟩
  · rw [contains_key_with_value_passes_iff]
    constructor
    · rintro ⟨v', hg, he⟩
      exact ⟨v', (get_eq_some_iff _ _ _).1 hg, he⟩
    · rintro ⟨v', hm, he⟩
      exact ⟨v', (get_eq_some_iff _ _ _).2 hm, he⟩
  · intro h
    exact contains_key_with_value_fail_none_eq dbgK dbgV veq s k v h
  · intro v' hg hveq
    exact contains_key_with_value_fail_mismatch_eq dbgK dbgV veq s k v v' hg hveq

theorem contains_key_with_value_spec_witness :
    (Spec.mk exMap1 none).subject.get 3 = none
    ∧ contains_key_with_value toString toString (fun a b => a == b)
        (Spec.mk exMap1 none) 3 7 =
      Except.error "\n\texpected: hashmap containing key <3> with value <7>\n\t but was: no matching key, keys are <[1]>" :=
  ⟨rfl,
    (contains_key_with_value_spec toString toString (fun a b => a == b)
      (Spec.mk exMap1 none) 3 7).2.1 rfl⟩

/-- Claim C2: contains_key passes iff the map has an entry for the key; on
pass it returns a new wrapper over the associated value; on failure the
expected text names the key and the actual text renders exactly the keys
currently in the map. -/
theorem contains_key_spec [DecidableEq K] (dbgK : K → String) (s : Spec (HMap K V))
    (k : K) :
    (passes (contains_key dbgK s k) = true ↔ ∃ v, (k, v) ∈ s.subject.entries)
    ∧ (∀ v, s.subject.get k = some v →
        contains_key dbgK s k = Except.ok (Spec.mk v s.description, s))
    ∧ (s.subject.get k = none →
        contains_key dbgK s k = Except.error
          (failureMessage s.description
            ("hashmap to contain key <" ++ dbgK k ++ ">")
            ("<" ++ renderKeyList dbgK s.subject.keys ++ ">")))
    ∧ (∀ key, key ∈ s.subject.keys ↔ ∃ v, (key, v) ∈ s.subject.entries) := by
  refine ⟨?_, ?_, ?_, ?_⟩
  · rw [contains_key_passes_iff]
    constructor
    · intro hs
      rcases Option.isSome_iff_exists.1 hs with ⟨v, hv⟩
      exact ⟨v, (get_eq_some_iff _ _ _).1 hv⟩
    · rintro ⟨v, hv⟩
      exact Option.isSome_iff_exists.2 ⟨v, (get_eq_some_iff _ _ _).2 hv⟩
  · intro v hv
    exact contains_key_ok_eq dbgK s k v hv
  · intro h
    exact contains_key_fail_eq dbgK s k h
  · intro key
    exact mem_keys_iff s.subject key

theorem contains_key_spec_witness :
    (Spec.mk exMap1 none).subject.get 2 = none
    ∧ contains_key toString (Spec.mk exMap1 none) 2 =
      Except.error "\n\texpected: hashmap to contain key <2>\n\t but was: <[1]>" :=
  ⟨rfl, (contains_key_spec toString (Spec.mk exMap1 none) 2).2.2.1 rfl⟩

/-- Claim C3: has_length passes iff the map length equals the expected
length, in particular on an empty map exactly for zero; on failure the
expected text names the expected length and the actual text is the actual
size in angle brackets. -/
theorem has_length_spec [DecidableEq K] (s : Spec (HMap K V)) (n : Nat) :
    (passes (has_length s n) = true ↔ s.subject.len = n)
    ∧ (s.subject.len ≠ n →
        has_length s n = Except.error
          (failureMessage s.description
            ("hashmap to have length <" ++ toString n ++ ">")
            ("<" ++ toString s.subject.len ++ ">")))
    ∧ (s.subject.entries = [] → (passes (has_length s n) = true ↔ n = 0)) := by
  refine ⟨has_length_passes_iff s n, ?_, ?_⟩
  · intro h
    exact has_length_fail_eq s n h
  · intro hemp
    rw [has_length_passes_iff]
    simp [HMap.len, hemp, eq_comm]

theorem has_length_spec_witness :
    (Spec.mk exMap none).subject.len ≠ 5
    ∧ has_length (Spec.mk exMap none) 5 =
      Except.error "\n\texpected: hashmap to have length <5>\n\t but was: <2>" :=
  ⟨by decide, (has_length_spec (Spec.mk exMap none) 5).2.1 (by decide)⟩

/-- Claim C4: finalizing a failure report never returns control (in the
embedding it is the error branch at every result type, so the code after a
fail call is unreachable), and the emitted message is exactly the newline,
tab, expected, newline, tab, but-was shape, prefixed with the wrapper
description and a colon when one is set. -/
theorem failure_report_fatal_format {α β : Type} :
    (∀ (f : AssertionFailure) (x : α), f.fail ≠ Except.ok x)
    ∧ (∀ (s : Spec β) (e a : String),
        (((AssertionFailure.from_spec s).with_expected e).with_actual a).fail (α := α) =
          Except.error ((match s.description with
            | some d => d ++ ": "
            | none => "") ++ "\n\texpected: " ++ e ++ "\n\t but was: " ++ a)) := by
  constructor
  · intro f x h
    exact Except.noConfusion h
  · intro s e a
    rfl

theorem failure_report_fatal_format_witness :
    (AssertionFailure.mk (some "d") (some "e") (some "a")).fail ≠ Except.ok (0 : Nat)
    ∧ (((AssertionFailure.from_spec (Spec.mk (5 : Nat) (some "my map"))).with_expected
          "e").with_actual "a").fail (α := Nat) =
        Except.error "my map: \n\texpected: e\n\t but was: a" :=
  ⟨(failure_report_fatal_format (β := Nat)).1 _ _,
    (failure_report_fatal_format (α := Nat)).2 (Spec.mk (5 : Nat) (some "my map")) "e" "a"⟩

/-- Claim C5: for a key present in the map, contains_key followed by the
equality assertion on the wrapper it returns behaves identically, result
and failure content included, to asserting equality directly on a wrapper
over the value the map associates to the key. -/
theorem chained_equality_equiv [DecidableEq K] (dbgK : K → String) (dbgV : V → String)
    (veq : V → V → Bool) (s : Spec (HMap K V)) (k : K) (x v : V)
    (h : s.subject.get k = some v) :
    (contains_key dbgK s k).bind (fun r => is_equal_to dbgV veq r.1 x) =
      is_equal_to dbgV veq (Spec.mk v s.description) x := by
  rw [contains_key_ok_eq dbgK s k v h]
  rfl

theorem chained_equality_equiv_witness :
    (Spec.mk exMap1 none).subject.get 1 = some 10
    ∧ (contains_key toString (Spec.mk exMap1 none) 1).bind
        (fun r => is_equal_to toString (fun a b => a == b) r.1 10) =
      is_equal_to toString (fun a b => a == b) (Spec.mk 10 none) 10 :=
  ⟨rfl,
    chained_equality_equiv toString toString (fun a b => a == b)
      (Spec.mk exMap1 none) 1 10 10 rfl⟩

/-- Claim C6 counterexample: on the singleton map, has_length 2 fails with
actual text in angle brackets, which differs from the bare string form of
the actual size that the claim prescribes. -/
theorem has_length_actual_text_cex :
    has_length (Spec.mk exMap1 none) 2 =
      Except.error "\n\texpected: hashmap to have length <2>\n\t but was: <1>"
    ∧ "\n\texpected: hashmap to have length <2>\n\t but was: <1>" ≠
      "\n\texpected: hashmap to have length <2>\n\t but was: 1" :=
  ⟨rfl, by decide⟩

/-- Claim C6 as amended: for a map of size n, has_length n passes, and
has_length of n plus one and of n minus one (when n is at least one) fail
with actual text equal to the string form of n enclosed in angle
brackets. -/
theorem has_length_offsets_spec [DecidableEq K] (s : Spec (HMap K V)) (n : Nat)
    (h : s.subject.len = n) :
    passes (has_length s n) = true
    ∧ has_length s (n + 1) = Except.error
        (failureMessage s.description
          ("hashmap to have length <" ++ toString (n + 1) ++ ">")
          ("<" ++ toString n ++ ">"))
    ∧ (1 ≤ n → has_length s (n - 1) = Except.error
        (failureMessage s.description
          ("hashmap to have length <" ++ toString (n - 1) ++ ">")
          ("<" ++ toString n ++ ">"))) := by
  subst h
  refine ⟨?_, ?_, ?_⟩
  · exact (has_length_passes_iff s s.subject.len).2 rfl
  · exact has_length_fail_eq s (s.subject.len + 1) (by omega)
  · intro h1
    exact has_length_fail_eq s (s.subject.len - 1) (by omega)

theorem has_length_offsets_spec_witness :
    (Spec.mk exMap none).subject.len = 2
    ∧ passes (has_length (Spec.mk exMap none) 2) = true
    ∧ has_length (Spec.mk exMap none) 3 =
        Except.error "\n\texpected: hashmap to have length <3>\n\t but was: <2>"
    ∧ has_length (Spec.mk exMap none) 1 =
        Except.error "\n\texpected: hashmap to have length <1>\n\t but was: <2>" :=
  ⟨rfl,
    (has_length_offsets_spec (Spec.mk exMap none) 2 rfl).1,
    (has_length_offsets_spec (Spec.mk exMap none) 2 rfl).2.1,
    (has_length_offsets_spec (Spec.mk exMap none) 2 rfl).2.2 (by decide)⟩

/-- Claim C7: over two wrappers whose maps hold the same entries, possibly
in different iteration orders and with different debug renderings, each of
the three assertions gives the same pass or fail outcome for the same
arguments; iteration order can only vary failure message content. -/
theorem outcome_order_independent [DecidableEq K] (dbgK1 dbgK2 : K → String)
    (dbgV1 dbgV2 : V → String) (veq : V → V → Bool) (s1 s2 : Spec (HMap K V))
    (hp : s1.subject.entries.Perm s2.subject.entries) (n : Nat) (k : K) (v : V) :
    passes (has_length s1 n) = passes (has_length s2 n)
    ∧ passes (contains_key dbgK1 s1 k) = passes (contains_key dbgK2 s2 k)
    ∧ passes (contains_key_with_value dbgK1 dbgV1 veq s1 k v) =
        passes (contains_key_with_value dbgK2 dbgV2 veq s2 k v) := by
  have hlen : s1.subject.len = s2.subject.len := hp.length_eq
  have hget : s1.subject.get k = s2.subject.get k := get_congr_of_perm _ _ hp k
  refine ⟨?_, ?_, ?_⟩
  · by_cases hc : s1.subject.len = n
    · have hc2 : s2.subject.len = n := by rw [← hlen]; exact hc
      simp [has_length, hc, hc2, passes]
    · have hc2 : s2.subject.len ≠ n := by rw [← hlen]; exact hc
      simp [has_length, hc, hc2, passes, AssertionFailure.fail]
  · cases hg : s1.subject.get k with
    | some v0 =>
      have hg2 : s2.subject.get k = some v0 := by rw [← hget]; exact hg
      rw [contains_key_ok_eq dbgK1 s1 k v0 hg, contains_key_ok_eq dbgK2 s2 k v0 hg2]
      rfl
    | none =>
      have hg2 : s2.subject.get k = none := by rw [← hget]; exact hg
      rw [contains_key_fail_eq dbgK1 s1 k hg, contains_key_fail_eq dbgK2 s2 k hg2]
      rfl
  · cases hg : s1.subject.get k with
    | some v0 =>
      have hg2 : s2.subject.get k = some v0 := by rw [← hget]; exact hg
      by_cases hv : veq v0 v = true
      · rw [contains_key_with_value_ok_eq dbgK1 dbgV1 veq s1 k v v0 hg hv,
          contains_key_with_value_ok_eq dbgK2 dbgV2 veq s2 k v v0 hg2 hv]
        rfl
      · have hv' : veq v0 v = false := by
          cases hb : veq v0 v
          · rfl
          · exact absurd hb hv
        rw [contains_key_with_value_fail_mismatch_eq dbgK1 dbgV1 veq s1 k v v0 hg hv',
          contains_key_with_value_fail_mismatch_eq dbgK2 dbgV2 veq s2 k v v0 hg2 hv']
        rfl
    | none =>
      have hg2 : s2.subject.get k = none := by rw [← hget]; exact hg
      rw [contains_key_with_value_fail_none_eq dbgK1 dbgV1 veq s1 k v hg,
        contains_key_with_value_fail_none_eq dbgK2 dbgV2 veq s2 k v hg2]
      rfl

theorem outcome_order_independent_witness :
    exMap.entries.Perm exMapRev.entries
    ∧ passes (has_length (Spec.mk exMap none) 2) =
        passes (has_length (Spec.mk exMapRev none) 2)
    ∧ passes (contains_key toString (Spec.mk exMap none) 1) =
        passes (contains_key toString (Spec.mk exMapRev none) 1)
    ∧ passes (contains_key_with_value toString toString (fun a b => a == b)
          (Spec.mk exMap none) 1 10) =
        passes (contains_key_with_value toString toString (fun a b => a == b)
          (Spec.mk exMapRev none) 1 10) :=
  ⟨List.Perm.swap (2, 20) (1, 10) [],
    outcome_order_independent toString toString toString toString (fun a b => a == b)
      (Spec.mk exMap none) (Spec.mk exMapRev none)
      (List.Perm.swap (2, 20) (1, 10) []) 2 1 10⟩

/-- Claim C8: when contains_key succeeds it returns a new wrapper whose
subject is the value the map associates to the key and whose description is
exactly the parent description, together with the original wrapper, whose
subject and description are unchanged. -/
theorem contains_key_rebind_frame [DecidableEq K] (dbgK : K → String)
    (s : Spec (HMap K V)) (k : K) (v : V) (h : s.subject.get k = some v) :
    contains_key dbgK s k = Except.ok (Spec.mk v s.description, s)
    ∧ (Spec.mk v s.description).subject = v
    ∧ (Spec.mk v s.description).description = s.description :=
  ⟨contains_key_ok_eq dbgK s k v h, rfl, rfl⟩

theorem contains_key_rebind_frame_witness :
    (Spec.mk exMap (some "m")).subject.get 2 = some 20
    ∧ contains_key toString (Spec.mk exMap (some "m")) 2 =
        Except.ok (Spec.mk 20 (some "m"), Spec.mk exMap (some "m")) :=
  ⟨rfl, (contains_key_rebind_frame toString (Spec.mk exMap (some "m")) 2 20 (by decide)).1⟩

/-- Claim C9: each of the three assertions is free of side effects on the
subject: a passing call returns the wrapper state unchanged, so the map,
its size, keys and values are identical before and after, and repeating
the passing assertion on that state passes again with the same result. -/
theorem assertions_side_effect_free [DecidableEq K] (dbgK : K → String)
    (dbgV : V → String) (veq : V → V → Bool) (s : Spec (HMap K V)) (n : Nat)
    (k : K) (v : V) :
    (∀ s', has_length s n = Except.ok s' →
      s' = s ∧ has_length s' n = Except.ok s')
    ∧ (∀ r s', contains_key dbgK s k = Except.ok (r, s') →
      s' = s ∧ contains_key dbgK s' k = Except.ok (r, s'))
    ∧ (∀ s', contains_key_with_value dbgK dbgV veq s k v = Except.ok s' →
      s' = s ∧ contains_key_with_value dbgK dbgV veq s' k v = Except.ok s') := by
  refine ⟨?_, ?_, ?_⟩
  · intro s' hok
    by_cases hc : s.subject.len = n
    · have heq : has_length s n = Except.ok s := by
        unfold has_length
        rw [if_neg (by simp [hc])]
      rw [heq] at hok
      injection hok with h2
      subst h2
      exact ⟨rfl, heq⟩
    · rw [has_length_fail_eq s n hc] at hok
      exact absurd hok (by simp)
  · intro r s' hok
    cases hg : s.subject.get k with
    | some v0 =>
      rw [contains_key_ok_eq dbgK s k v0 hg] at hok
      injection hok with h2
      injection h2 with hr hs
      subst hs
      subst hr
      exact ⟨rfl, contains_key_ok_eq dbgK s k v0 hg⟩
    | none =>
      rw [contains_key_fail_eq dbgK s k hg] at hok
      exact absurd hok (by simp)
  · intro s' hok
    cases hg : s.subject.get k with
    | some v0 =>
      by_cases hv : veq v0 v = true
      · have heq := contains_key_with_value_ok_eq dbgK dbgV veq s k v v0 hg hv
        rw [heq] at hok
        injection hok with h2
        subst h2
        exact ⟨rfl, heq⟩
      · have hv' : veq v0 v = false := by
          cases hb : veq v0 v
          · rfl
          · exact absurd hb hv
        rw [contains_key_with_value_fail_mismatch_eq dbgK dbgV veq s k v v0 hg hv'] at hok
        exact absurd hok (by simp)
    | none =>
      rw [contains_key_with_value_fail_none_eq dbgK dbgV veq s k v hg] at hok
      exact absurd hok (by simp)

theorem assertions_side_effect_free_witness :
    has_length (Spec.mk exMap none) 2 = Except.ok (Spec.mk exMap none)
    ∧ (Spec.mk exMap none = Spec.mk exMap none
      ∧ has_length (Spec.mk exMap none) 2 = Except.ok (Spec.mk exMap none)) :=
  ⟨rfl,
    (assertions_side_effect_free toString toString (fun a b => a == b)
      (Spec.mk exMap none) 2 1 10).1 (Spec.mk exMap none) rfl⟩

/-- Claim C10: contains_key_with_value invokes the value equality relation
at most once, only on the stored value and the expected value, and only
when the key is present; when the key is absent the whole result, failure
branch included, is independent of the value equality relation. -/
theorem value_equality_usage [DecidableEq K] (dbgK : K → String) (dbgV : V → String)
    (s : Spec (HMap K V)) (k : K) (v : V) :
    (contains_key_with_value_eq_calls s k v).length ≤ 1
    ∧ (∀ v', s.subject.get k = some v' →
        contains_key_with_value_eq_calls s k v = [(v', v)])
    ∧ (s.subject.get k = none → contains_key_with_value_eq_calls s k v = [])
    ∧ (s.subject.get k = none → ∀ veq1 veq2 : V → V → Bool,
        contains_key_with_value dbgK dbgV veq1 s k v =
          contains_key_with_value dbgK dbgV veq2 s k v) := by
  refine ⟨?_, ?_, ?_, ?_⟩
  · cases hg : s.subject.get k with
    | some v0 => simp [contains_key_with_value_eq_calls, hg]
    | none => simp [contains_key_with_value_eq_calls, hg]
  · intro v' hg
    simp [contains_key_with_value_eq_calls, hg]
  · intro hg
    simp [contains_key_with_value_eq_calls, hg]
  · intro hg veq1 veq2
    rw [contains_key_with_value_fail_none_eq dbgK dbgV veq1 s k v hg,
      contains_key_with_value_fail_none_eq dbgK dbgV veq2 s k v hg]

theorem value_equality_usage_witness :
    (Spec.mk exMap1 none).subject.get 3 = none
    ∧ contains_key_with_value_eq_calls (Spec.mk exMap1 none) 3 7 = []
    ∧ contains_key_with_value toString toString (fun _ _ => true)
        (Spec.mk exMap1 none) 3 7 =
      contains_key_with_value toString toString (fun _ _ => false)
        (Spec.mk exMap1 none) 3 7 :=
  ⟨rfl,
    (value_equality_usage toString toString (Spec.mk exMap1 none) 3 7).2.2.1 rfl,
    (value_equality_usage toString toString (Spec.mk exMap1 none) 3 7).2.2.2 rfl
      (fun _ _ => true) (fun _ _ => false)⟩

end Spectral
